import Mathlib

/-!
Verification of the NetAcad gradebook export pipeline (repository `netacad`).

This development gives a shallow embedding, in Lean, of the parts of the
repository that the specification's claims are about:

* the batch partition and worker-pool orchestration of `courses.py`
  (`process_courses`, `worker_handle_course`),
* the per-course export state machine (`execute_gradebook_actions` driven by
  `utils/gradebook_manager.py`) together with the download wait
  (`wait_for_parallel_download`),
* the course catalog collector (`collect_course_data`),
* the tabular transform of `backend/app/utils/course_gradebook.py`
  (`GradebookManager.process_csv_file`), including a faithful model of its
  line pre-cleaning and of the `pandas.read_csv` call it performs.

Browser, filesystem and clock effects are modelled by explicit environment
records supplying the outcome of each effectful step; the control flow around
those steps is translated directly from the Python source.
-/

namespace Netacad

/-- One unit of work: a course to export.  In `courses.py` tasks are the
tuples `(course_url, course_id, course_name)` built in `process_courses`. -/
structure CourseTask where
  url : String
  id : String
  name : String
deriving DecidableEq

/-- Pydantic model `CourseExportResult` of `courses.py`. -/
structure CourseExportResult where
  course_id : String
  course_name : String
  course_url : String
  success : Bool
  csv_path : Option String
  md_path : Option String
  error : Option String
deriving DecidableEq

/-- Failure result built by `courses.py` at the many failure sites: all fields
copied from the task, `success=False`, paths `None`, with the given error. -/
def failedResult (t : CourseTask) (err : String) : CourseExportResult :=
  ⟨t.id, t.name, t.url, false, none, none, some err⟩

/-- Success result built at the end of `execute_gradebook_actions`. -/
def okResult (t : CourseTask) (csv md : String) : CourseExportResult :=
  ⟨t.id, t.name, t.url, true, some csv, some md, none⟩

/-! ## Batch partition (`process_courses`, courses.py lines 1044-1053)

```python
batch_size = max(1, len(course_data) // MAX_WORKERS)
batches = [course_data[i : i + batch_size] for i in range(0, len(course_data), batch_size)]
if len(batches) > MAX_WORKERS:
    while len(batches) > MAX_WORKERS:
        batches[-2].extend(batches[-1])
        batches.pop()
```
-/

/-- `max(1, n // w)` from the source. -/
def batchSize (n w : Nat) : Nat := max 1 (n / w)

/-- The slicing loop `[l[i : i + k] for i in range(0, len(l), k)]`, for
`k ≥ 1`.  Fuel bounds the recursion; `l.length` steps always suffice. -/
def chunksAux {α : Type} : Nat → List α → Nat → List (List α)
  | 0, _, _ => []
  | _ + 1, [], _ => []
  | fuel + 1, l, k => l.take k :: chunksAux fuel (l.drop k) k

/-- Slice `l` into consecutive chunks of size `k`. -/
def chunks {α : Type} (l : List α) (k : Nat) : List (List α) :=
  chunksAux l.length l k

/-- One iteration of the merge loop: `batches[-2].extend(batches[-1]);
batches.pop()`.  The loop only runs it on lists of length ≥ 2. -/
def mergeLastTwo {α : Type} (l : List (List α)) : List (List α) :=
  match l.reverse with
  | a :: b :: rest => ((b ++ a) :: rest).reverse
  | _ => l

/-- The `while len(batches) > MAX_WORKERS` merge loop, fuelled. -/
def mergeExcessAux {α : Type} : Nat → List (List α) → Nat → List (List α)
  | 0, bs, _ => bs
  | fuel + 1, bs, w => if bs.length ≤ w then bs else mergeExcessAux fuel (mergeLastTwo bs) w

/-- Partition of the task list into worker batches, exactly as in
`process_courses` (and identically in `course_export_optimized.py`). -/
def makeBatches {α : Type} (l : List α) (w : Nat) : List (List α) :=
  let bs := chunks l (batchSize l.length w)
  mergeExcessAux bs.length bs w

-- Sanity checks of the model against hand-executions of the Python code.

example : makeBatches [1, 2, 3, 4, 5] 2 = [[1, 2], [3, 4, 5]] := by decide

example : makeBatches [1, 2, 3, 4, 5, 6, 7] 4 = [[1], [2], [3], [4, 5, 6, 7]] := by decide

example : makeBatches [1, 2, 3] 4 = [[1], [2], [3]] := by decide

/-- Sample tasks used by the concrete witnesses below. -/
def sampleTask (i : Nat) : CourseTask :=
  ⟨"https://www.netacad.com/launch?id=" ++ toString i, toString i, "Course " ++ toString i⟩

/-! ## Worker slots (`worker_handle_course`, courses.py lines 943-1007)

A slot creates a browser, performs one `login(browser)` call, and, when that
call returns `True`, runs `execute_gradebook_actions` sequentially over its
batch.  An exception escaping any per-course call is caught by the slot's
`except Exception` handler, which REPLACES the collected `results` list by a
failure entry for every course of the batch.  A failed login returns a
"Login failed" entry for every course without any retry of the login. -/

/-- Outcome of one `execute_gradebook_actions` call as observed by the worker
loop: a returned success (with the two persisted artifact paths), a returned
failure, or an exception escaping the call. -/
inductive CourseAttempt where
  | ok (csv md : String)
  | fail (err : String)
  | exc (msg : String)
deriving DecidableEq

/-- Environment of one worker slot: the result of its single `login` call and
the outcome of each per-course attempt, indexed by position in the batch. -/
structure SlotEnv where
  login : Bool
  attempt : Nat → CourseTask → CourseAttempt

/-- The `for course_url, course_id, course_name in batches:` loop of
`worker_handle_course`.  Returns the collected results, the list of artifact
files persisted so far (a successful attempt has already written its CSV and
Markdown artifacts through `process_downloaded_file`), and the escaping
exception, if any. -/
def runCourses (env : SlotEnv) :
    Nat → List CourseTask → List String →
      List CourseExportResult × List String × Option String
  | _, [], fs => ([], fs, none)
  | i, t :: ts, fs =>
    match env.attempt i t with
    | .exc e => ([], fs, some e)
    | .ok c m =>
      let r := runCourses env (i + 1) ts (fs ++ [c, m])
      (okResult t c m :: r.1, r.2)
    | .fail err =>
      let r := runCourses env (i + 1) ts fs
      (failedResult t err :: r.1, r.2)

/-- `worker_handle_course(batches, worker_id)`: the returned value is the
result list; we additionally expose the artifact store and the number of
`login` calls performed (the function body contains exactly one, unretried).
On an escaped exception the whole result list is rebuilt as failures carrying
`str(e)`, exactly as in the source's `except Exception` branch. -/
def worker_handle_course (env : SlotEnv) (batch : List CourseTask)
    (fs : List String) : List CourseExportResult × List String × Nat :=
  if env.login = false then
    (batch.map (fun t => failedResult t "Login failed"), fs, 1)
  else
    let r := runCourses env 0 batch fs
    match r.2.2 with
    | none => (r.1, r.2.1, 1)
    | some e => (batch.map (fun t => failedResult t e), r.2.1, 1)

/-- Concrete slot for the C10 witness: course 0 succeeds, course 1 raises. -/
def c10SlotEnv : SlotEnv :=
  ⟨true, fun i _ => if i = 0 then .ok "c1.csv" "m1.md" else .exc "boom"⟩

/-! ## Orchestration (`process_courses`, courses.py lines 1059-1100)

Each batch is submitted as a future running `worker_handle_course`.  Results
are collected with `as_completed`, i.e. in an arbitrary completion order; a
future whose `result()` raises contributes, inside the `except` branch, one
error entry per course of the corresponding batch (with the course URL
reconstructed from the course id). -/

/-- Environment of a batch run: the slot environment of each worker and, per
worker, whether its future's `result()` call raises. -/
structure OrchestraEnv where
  slot : Nat → SlotEnv
  futureExc : Nat → Option String

/-- Error result built in the
`except Exception` branch of the `as_completed` loop of `process_courses`. -/
def futureFailResult (wid : Nat) (e : String) (t : CourseTask) : CourseExportResult :=
  ⟨t.id, t.name, "https://www.netacad.com/launch?id=" ++ t.id, false, none, none,
    some ("Worker " ++ toString wid ++ " failed: " ++ e)⟩

/-- Contribution of worker `wid` to `all_results`. -/
def workerOutput (env : OrchestraEnv) (batches : List (List CourseTask)) (wid : Nat) :
    List CourseExportResult :=
  match env.futureExc wid with
  | some e => (batches.getD wid []).map (futureFailResult wid e)
  | none => (worker_handle_course (env.slot wid) (batches.getD wid []) []).1

/-- The batch run: partition into batches, run every worker, and concatenate
the worker outputs in completion order (`order`, a permutation of the worker
indices). -/
def process_courses (env : OrchestraEnv) (tasks : List CourseTask) (w : Nat)
    (order : List Nat) : List CourseExportResult :=
  (order.map (workerOutput env (makeBatches tasks w))).flatten

/-- `successful_exports`, counted over the collected results. -/
def successCount (rs : List CourseExportResult) : Nat :=
  rs.countP (fun r => r.success)

/-- `failed_exports`, counted over the collected results. -/
def failedCount (rs : List CourseExportResult) : Nat :=
  rs.countP (fun r => !r.success)

/-- Concrete orchestration for the C1 witness: worker 0's login fails,
worker 1 raises mid-batch, worker 2's future raises. -/
def c1Orchestra : OrchestraEnv :=
  { slot := fun wid =>
      ⟨wid != 0,
        fun i _ => if wid = 1 ∧ i = 1 then .exc "boom" else .ok "c.csv" "m.md"⟩
    futureExc := fun wid => if wid = 2 then some "future down" else none }

/-- Task list for the C1 witness. -/
def c1Tasks : List CourseTask :=
  [sampleTask 1, sampleTask 2, sampleTask 3, sampleTask 4, sampleTask 5]

/-! ## Download wait (`wait_for_parallel_download`, courses.py lines 708-749)

Time is discretised by the `time.sleep(1)` calls: `listing t` is the content
of the worker's download directory and `size f t` the size of file `f` at
instant `t`.  `initial_files` is the directory listing taken once before the
loop.  The outer `while` polls until `timeout`; when a new `.csv` file is
present, the newest (by creation time) is probed three times, one second
apart, and returned once two consecutive size reads agree and are positive. -/

/-- Clock-indexed view of the worker's exclusive download directory. -/
structure DownloadEnv where
  listing : Nat → List String
  size : String → Nat → Nat
  ctime : String → Nat

/-- `new_files = current_files - initial_files` filtered to `.csv`. -/
def newCsvFiles (env : DownloadEnv) (initialFiles : List String) (t : Nat) :
    List String :=
  (env.listing t).filter (fun f => decide (f ∉ initialFiles) && f.endsWith ".csv")

/-- `max(csv_files, key=...getctime...)`: Python's `max` keeps the first
element among ties and replaces only on a strictly greater key. -/
def maxByCtime (env : DownloadEnv) (f : String) (rest : List String) : String :=
  rest.foldl (fun best x => if env.ctime best < env.ctime x then x else best) f

/-- The inner `for _ in range(3)` stability probe: reads `getsize` at the
current instant, succeeds when the read equals the previous read and is
positive, otherwise sleeps one second and retries.  Returns the success flag
and the instant reached. -/
def probeLoop (env : DownloadEnv) (f : String) : Nat → Nat → Nat → Bool × Nat
  | 0, _, t => (false, t)
  | iters + 1, prev, t =>
    let cur := env.size f t
    if cur = prev ∧ 0 < cur then (true, t)
    else probeLoop env f iters cur (t + 1)

/-- The outer `while time.time() - start_time < timeout` loop, fuelled; every
iteration advances the clock by at least one second, so `timeout + 1` fuel is
always enough. -/
def waitLoop (env : DownloadEnv) (initialFiles : List String) (timeout : Nat) :
    Nat → Nat → Option String
  | 0, _ => none
  | fuel + 1, t =>
    if timeout ≤ t then none
    else
      match newCsvFiles env initialFiles t with
      | [] => waitLoop env initialFiles timeout fuel (t + 1)
      | f :: rest =>
        let newest := maxByCtime env f rest
        let p := probeLoop env newest 3 0 t
        if p.1 then some newest
        else waitLoop env initialFiles timeout fuel (p.2 + 1)

/-- `wait_for_parallel_download(path, timeout, worker_id)`. -/
def wait_for_parallel_download (env : DownloadEnv) (timeout : Nat) : Option String :=
  waitLoop env (env.listing 0) timeout (timeout + 1) 0

/-! ## Export state machine (`execute_gradebook_actions`, courses.py
lines 792-940, driven by `utils/gradebook_manager.py`)

Each UI step of the linear flow is a browser interaction whose success is
supplied by the environment; the control flow (error strings, early returns,
the intercepted-click recovery, the download wait, the transform hand-off)
is translated from the source.  `handle_modal` always returns `True` in the
source, so it carries no flag.  The returned trace lists the stages the call
actually reached, in execution order. -/

/-- Stages of the per-course export flow, in source order. -/
inductive Stage where
  | gradebookTab
  | exportDropdown
  | exportAll
  | modal
  | refreshList
  | openList
  | exportLinks
  | clickLink
  | download
  | transformFile
deriving DecidableEq

/-- Environment of one `execute_gradebook_actions` call. -/
structure UiEnv where
  tabClickable : Bool
  dropdownOk : Bool
  exportAllOk : Bool
  refreshOk : Bool
  openListOk : Bool
  exportLinkFound : Bool
  clickIntercepted : Bool
  overlayRecovered : Bool
  overlayExc : String
  download : DownloadEnv
  downloadTimeout : Nat
  transformResult : Option (String × String)

/-- `execute_gradebook_actions(browser, course_url, course_id, course_name,
worker_id)`: result plus the trace of stages reached. -/
def execute_gradebook_actions (env : UiEnv) (t : CourseTask) :
    CourseExportResult × List Stage :=
  if env.tabClickable = false then
    (failedResult t "Failed to click on the gradebook tab", [.gradebookTab])
  else if env.dropdownOk = false then
    (failedResult t "Failed to open export dropdown",
      [.gradebookTab, .exportDropdown])
  else if env.exportAllOk = false then
    (failedResult t "Failed to export all grades",
      [.gradebookTab, .exportDropdown, .exportAll])
  else if env.refreshOk = false then
    (failedResult t "Failed to refresh export list",
      [.gradebookTab, .exportDropdown, .exportAll, .modal, .refreshList])
  else if env.openListOk = false then
    (failedResult t "Failed to open refresh list",
      [.gradebookTab, .exportDropdown, .exportAll, .modal, .refreshList, .openList])
  else if env.exportLinkFound = false then
    (failedResult t "Failed to find export links",
      [.gradebookTab, .exportDropdown, .exportAll, .modal, .refreshList, .openList,
        .exportLinks])
  else if env.clickIntercepted = true ∧ env.overlayRecovered = false then
    (failedResult t
        ("Element click intercepted and overlay could not be closed: "
          ++ env.overlayExc),
      [.gradebookTab, .exportDropdown, .exportAll, .modal, .refreshList, .openList,
        .exportLinks, .clickLink])
  else
    match wait_for_parallel_download env.download env.downloadTimeout with
    | none =>
      (failedResult t "Download failed - CSV file not found after export",
        [.gradebookTab, .exportDropdown, .exportAll, .modal, .refreshList, .openList,
          .exportLinks, .clickLink, .download])
    | some _ =>
      match env.transformResult with
      | some (c, m) =>
        (okResult t c m,
          [.gradebookTab, .exportDropdown, .exportAll, .modal, .refreshList, .openList,
            .exportLinks, .clickLink, .download, .transformFile])
      | none =>
        (failedResult t "Failed to process downloaded file",
          [.gradebookTab, .exportDropdown, .exportAll, .modal, .refreshList, .openList,
            .exportLinks, .clickLink, .download, .transformFile])

/-- Download directory that never receives a file: the C5 witness clock. -/
def c5DownloadEnv : DownloadEnv := ⟨fun _ => [], fun _ _ => 0, fun _ => 0⟩

/-- UI environment whose steps all succeed but whose download never appears. -/
def c5UiEnv : UiEnv :=
  ⟨true, true, true, true, true, true, false, true, "", c5DownloadEnv, 3,
    some ("c.csv", "m.md")⟩

/-- UI environment whose gradebook tab never becomes clickable. -/
def c8UiEnv : UiEnv :=
  ⟨false, true, true, true, true, true, false, true, "", c5DownloadEnv, 3,
    some ("c.csv", "m.md")⟩

/-! ## Python string primitives

`str.strip()` and friends, on explicit character lists so that every
definition computes by kernel reduction. -/

/-- Whitespace recognised by Python's `str.strip()`. -/
def isPyWs (c : Char) : Bool :=
  c = ' ' ∨ c = '\t' ∨ c = '\n' ∨ c = '\r' ∨ c = '\x0b' ∨ c = '\x0c'

/-- `str.strip()` on characters. -/
def pyStripChars (l : List Char) : List Char :=
  ((l.dropWhile isPyWs).reverse.dropWhile isPyWs).reverse

/-- Python `s.strip()`. -/
def pyStrip (s : String) : String :=
  String.mk (pyStripChars s.data)

/-! ## Course catalog collector (`collect_course_data`, courses.py
lines 308-370)

The collector walks the paginated class list; on each visited page it reads
the course anchors, keeps `(url, name)` for anchors whose `href` and stripped
text are both truthy and whose URL was not seen before, and finally unzips
the collected pair list.  A login failure or any exception in the `try` body
yields `([], [])`.  The pages actually visited before pagination ends are the
model's input. -/

/-- One course anchor as the collector reads it: `get_attribute("href")`
(possibly `None`) and the element text. -/
structure Anchor where
  href : Option String
  text : String
deriving DecidableEq

/-- Validation done in the anchor loop: `if url and name and url not in
seen_urls` — the truthiness part. -/
def anchorPair (a : Anchor) : Option (String × String) :=
  match a.href with
  | none => none
  | some url =>
    let name := pyStrip a.text
    if url ≠ "" ∧ name ≠ "" then some (url, name) else none

/-- One iteration of the anchor loop: state is `(course_data, seen_urls)`. -/
def collectStep (acc : List (String × String) × List String) (a : Anchor) :
    List (String × String) × List String :=
  match anchorPair a with
  | none => acc
  | some (u, n) => if u ∈ acc.2 then acc else (acc.1 ++ [(u, n)], u :: acc.2)

/-- `collect_course_data()`: `excRaised` covers both a failed login and an
exception escaping the `try` body, which both return `([], [])`. -/
def collect_course_data (excRaised : Bool) (pages : List (List Anchor)) :
    List String × List String :=
  if excRaised then ([], [])
  else
    let data := (pages.flatten.foldl collectStep ([], [])).1
    (data.map Prod.fst, data.map Prod.snd)

/-- Reference description, following the spec's words: the valid pairs in
first-seen order with URL duplicates (relative to `seen`) skipped. -/
def firstSeenDedup : List (String × String) → List String → List (String × String)
  | [], _ => []
  | (u, n) :: rest, seen =>
    if u ∈ seen then firstSeenDedup rest seen
    else (u, n) :: firstSeenDedup rest (u :: seen)

/-- The valid `(url, stripped name)` pairs of the visited pages, in page
order. -/
def validPairs (pages : List (List Anchor)) : List (String × String) :=
  pages.flatten.filterMap anchorPair

/-! ## Tabular transform (`GradebookManager.process_csv_file`,
backend/app/utils/course_gradebook.py lines 442-608)

The transform pre-cleans the raw download line by line (strip, drop blank
lines, rewrite the quoted-space patterns `, " "` / `" " ,` / `, " " ,`, then
`re.sub(r"\s*,\s*", ",")`), writes the cleaned lines to a temp file, counts
the header line's commas to fix the column count, and calls
`pandas.read_csv` with `skiprows=[1]` (the assumed "Points Possible" row),
`skipinitialspace=True`, `na_values=["", "NULL"]` with the default NA list
kept, and `usecols=range(num_columns)`.  Column names are then stripped of
whitespace and quotes, unnamed columns dropped, `NaN` replaced by the
literal string "NULL", and `COURSE_ID`/`COURSE_NAME` inserted at positions
0 and 1.  The `pandas` behaviours relied on are modelled here explicitly:
short rows are padded with NA, the first `num_columns` fields are used, an
empty file raises, and a header with fewer parsed fields than
`num_columns` makes `usecols` raise. -/

/-- Python `str.replace` (all non-overlapping occurrences, left to right),
on characters; fuel is the input length (patterns used are non-empty). -/
def replChars : Nat → List Char → List Char → List Char → List Char
  | 0, _, _, l => l
  | fuel + 1, pat, rep, l =>
    match l with
    | [] => []
    | c :: rest =>
      if pat.isPrefixOf (c :: rest) then
        rep ++ replChars fuel pat rep ((c :: rest).drop pat.length)
      else c :: replChars fuel pat rep rest

/-- Python `s.replace(pat, rep)`. -/
def pyReplace (s pat rep : String) : String :=
  String.mk (replChars s.data.length pat.data rep.data s.data)

/-- Leading `\s*` run. -/
def dropWsRun (l : List Char) : List Char := l.dropWhile isPyWs

/-- Match `\s*,\s*` at the head of `l`; on success return the rest. -/
def matchCommaWs (l : List Char) : Option (List Char) :=
  match dropWsRun l with
  | ',' :: rest => some (dropWsRun rest)
  | _ => none

/-- `re.sub(r"\s*,\s*", ",", line)`: leftmost-greedy scan. -/
def subCommaWsAux : Nat → List Char → List Char
  | 0, l => l
  | fuel + 1, l =>
    match l with
    | [] => []
    | c :: rest =>
      match matchCommaWs (c :: rest) with
      | some rest2 => ',' :: subCommaWsAux fuel rest2
      | none => c :: subCommaWsAux fuel rest

/-- `re.sub(r"\s*,\s*", ",", s)`. -/
def subCommaWs (s : String) : String :=
  String.mk (subCommaWsAux s.data.length s.data)

/-- The per-line cleaning of `process_csv_file` applied to an already
stripped, non-blank line: the three quoted-space replaces, in source order,
then the comma-whitespace collapse. -/
def cleanLine (s : String) : String :=
  subCommaWs (pyReplace (pyReplace (pyReplace s ", \" \"" ",") "\" \" ," ",") ", \" \" ," ",,")

/-- The pre-processing loop: strip each line, skip blank lines, clean. -/
def cleanedLines (rawLines : List String) : List String :=
  rawLines.filterMap (fun l =>
    if pyStrip l = "" then none else some (cleanLine (pyStrip l)))

/-- `header_line.count(",")`. -/
def commaCount (s : String) : Nat := s.data.countP (fun c => c = ',')

/-- Body of a double-quoted CSV field: consumes up to the closing quote,
reading `""` as an escaped quote; returns the body and the rest. -/
def quotedBody : Nat → List Char → List Char × List Char
  | 0, l => ([], l)
  | fuel + 1, l =>
    match l with
    | [] => ([], [])
    | '"' :: '"' :: rest =>
      let r := quotedBody fuel rest
      ('"' :: r.1, r.2)
    | '"' :: rest => ([], rest)
    | c :: rest =>
      let r := quotedBody fuel rest
      (c :: r.1, r.2)

/-- CSV field splitting as `pandas.read_csv` performs it here: fields are
separated by top-level commas; `skipinitialspace=True` drops spaces after
each separator; a field opening with `"` is read as a quoted field (any
stray characters between the closing quote and the separator are appended). -/
def parseFieldsAux : Nat → List Char → List String
  | 0, _ => []
  | fuel + 1, l =>
    let l1 := l.dropWhile (fun c => c = ' ')
    match l1 with
    | '"' :: rest =>
      let q := quotedBody rest.length rest
      let extra := q.2.takeWhile (fun c => c ≠ ',')
      let rest2 := q.2.dropWhile (fun c => c ≠ ',')
      match rest2 with
      | ',' :: rr => String.mk (q.1 ++ extra) :: parseFieldsAux fuel rr
      | _ => [String.mk (q.1 ++ extra)]
    | _ =>
      let field := l1.takeWhile (fun c => c ≠ ',')
      let rest2 := l1.dropWhile (fun c => c ≠ ',')
      match rest2 with
      | ',' :: rr => String.mk field :: parseFieldsAux fuel rr
      | _ => [String.mk field]

/-- Fields of one cleaned line. -/
def parseFields (s : String) : List String :=
  parseFieldsAux (s.data.length + 1) s.data

/-- `pandas` default NA strings together with `na_values=["", "NULL"]`. -/
def naVals : List String :=
  ["", "#N/A", "#N/A N/A", "#NA", "-1.#IND", "-1.#QNAN", "-NaN", "-nan",
    "1.#IND", "1.#QNAN", "<NA>", "N/A", "NA", "NULL", "NaN", "None", "n/a",
    "nan", "null"]

/-- A parsed field as a cell: NA strings become missing values. -/
def toCell (s : String) : Option String :=
  if s ∈ naVals then none else some s

/-- One data row restricted to the first `n` columns (`usecols`), short rows
padded with NA. -/
def rowCells (n : Nat) (line : String) : List (Option String) :=
  let fields := parseFields line
  (fields.take n).map toCell ++ List.replicate (n - fields.length) none

/-- `pandas` header naming: an empty header field at position `i` becomes
`Unnamed: i`. -/
def headerNames (fields : List String) : List String :=
  fields.enum.map (fun p => if p.2 = "" then "Unnamed: " ++ toString p.1 else p.2)

/-- Python `str.strip('"')`: all leading and trailing quote characters. -/
def stripQuoteChars (l : List Char) : List Char :=
  ((l.dropWhile (fun c => c = '"')).reverse.dropWhile (fun c => c = '"')).reverse

/-- `df.columns.str.strip().str.strip('"')` on one name. -/
def cleanColName (s : String) : String :=
  String.mk (stripQuoteChars (pyStripChars s.data))

/-- The drop condition `col.startswith("Unnamed:") or col == ""`. -/
def isUnnamedCol (s : String) : Bool :=
  List.isPrefixOf "Unnamed:".data s.data || s = ""

/-- Keep the entries of `row` whose mask entry is true. -/
def filterByKeep {α : Type} (keep : List Bool) (row : List α) : List α :=
  (keep.zip row).filterMap (fun p => if p.1 then some p.2 else none)

/-- Column keep-mask derived from a cleaned header line. -/
def keepMask (header : String) : List Bool :=
  ((headerNames (parseFields header)).map cleanColName).map
    (fun nm => !(isUnnamedCol nm))

/-- The emitted machine table. -/
structure PyFrame where
  headers : List String
  rows : List (List String)
deriving DecidableEq

/-- One emitted data row: parse, restrict to the header's columns, drop
unnamed columns, replace missing values by the literal "NULL", and prepend
`COURSE_ID` and `COURSE_NAME`. -/
def finalRow (numCols : Nat) (keep : List Bool) (cid cname : String)
    (line : String) : List String :=
  cid :: cname ::
    (filterByKeep keep (rowCells numCols line)).map (fun c => c.getD "NULL")

/-- The dataframe `process_csv_file` persists with `to_csv`: the composition
of the pre-cleaning and the modelled `read_csv`/rename/drop/fillna/insert
pipeline.  `none` models an exception out of `read_csv` (empty input, or
`usecols` exceeding the parsed header width). -/
def buildDataFrame (rawLines : List String) (cid cname : String) :
    Option PyFrame :=
  match cleanedLines rawLines with
  | [] => none
  | header :: restLines =>
    let dataLines := restLines.drop 1
    let numCols := commaCount header + 1
    let hfields := parseFields header
    if hfields.length ≠ numCols then none
    else
      some ⟨"COURSE_ID" :: "COURSE_NAME" ::
          filterByKeep (keepMask header) ((headerNames hfields).map cleanColName),
        dataLines.map (finalRow numCols (keepMask header) cid cname)⟩

/-- Effect environment of one `process_csv_file` call: whether the raw file
exists, the lines it contains, and which of the fallible IO/library steps
raise (carrying the exception text). -/
structure TransformEnv where
  fileExists : Bool
  readError : Option String
  rawLines : List String
  writeTempError : Option String
  readCsvError : Option String
  unlinkTempError : Option String
  toCsvError : Option String
  markdownOk : Bool
  unlinkOrigError : Option String

/-- The body of the `try:` block of `process_csv_file`, with every fallible
step explicit.  A markdown failure still returns success with an empty
markdown path, exactly as in the source. -/
def processCsvBody (env : TransformEnv) (cid cname fname : String) :
    Except String (Bool × String × String) :=
  match env.readError with
  | some e => .error e
  | none =>
    match env.writeTempError with
    | some e => .error e
    | none =>
      match buildDataFrame env.rawLines cid cname with
      | none => .error "pandas parse error"
      | some _ =>
        match env.readCsvError with
        | some e => .error e
        | none =>
          match env.unlinkTempError with
          | some e => .error e
          | none =>
            match env.toCsvError with
            | some e => .error e
            | none =>
              if env.markdownOk then
                match env.unlinkOrigError with
                | some e => .error e
                | none =>
                  .ok (true, "csv_exports/" ++ fname, "markdown_exports/" ++ fname)
              else .ok (true, "csv_exports/" ++ fname, "")

/-- `process_csv_file(csv_filename, course_id, course_name)`: the existence
check precedes the `try`; the `except Exception` handler converts every
escaped exception into `(False, "", "")`. -/
def process_csv_file (env : TransformEnv) (cid cname fname : String) :
    Bool × String × String :=
  if env.fileExists = false then (false, "", "")
  else
    match processCsvBody env cid cname fname with
    | .ok r => r
    | .error _ => (false, "", "")

-- ======================================================================
-- Theorems
-- ======================================================================

theorem chunksAux_join {α : Type} :
    ∀ (fuel : Nat) (l : List α) (k : Nat), 1 ≤ k → l.length ≤ fuel →
      (chunksAux fuel l k).flatten = l := by
  intro fuel
  induction fuel with
  | zero =>
    intro l k _ hl
    have hnil : l = [] := List.eq_nil_of_length_eq_zero (Nat.le_zero.mp hl)
    subst hnil
    simp [chunksAux]
  | succ n ih =>
    intro l k hk hl
    match l with
    | [] => simp [chunksAux]
    | a :: l' =>
      simp only [chunksAux, List.flatten_cons]
      rw [ih ((a :: l').drop k) k hk
        (by simp only [List.length_drop, List.length_cons]
            simp only [List.length_cons] at hl; omega)]
      exact List.take_append_drop k (a :: l')

theorem chunksAux_length {α : Type} :
    ∀ (fuel : Nat) (l : List α) (k : Nat), 1 ≤ k → l.length ≤ fuel →
      (chunksAux fuel l k).length = (l.length + k - 1) / k := by
  intro fuel
  induction fuel with
  | zero =>
    intro l k hk hl
    have hnil : l = [] := List.eq_nil_of_length_eq_zero (Nat.le_zero.mp hl)
    subst hnil
    simp [chunksAux]
    exact (Nat.div_eq_of_lt (by omega)).symm
  | succ n ih =>
    intro l k hk hl
    match l with
    | [] =>
      simp [chunksAux]
      exact (Nat.div_eq_of_lt (by omega)).symm
    | a :: l' =>
      simp only [chunksAux, List.length_cons]
      rw [ih ((a :: l').drop k) k hk
        (by simp only [List.length_drop, List.length_cons]
            simp only [List.length_cons] at hl; omega)]
      simp only [List.length_drop, List.length_cons]
      have hrhs : l'.length + 1 + k - 1 = l'.length + k := by omega
      rw [hrhs, Nat.add_div_right _ (by omega)]
      rcases Nat.le_total k (l'.length + 1) with hle | hlt
      · have : l'.length + 1 - k + k - 1 = l'.length := by omega
        rw [this]
      · have h0 : l'.length + 1 - k = 0 := by omega
        rw [h0]
        have h1 : (0 + k - 1) / k = 0 := Nat.div_eq_of_lt (by omega)
        have h2 : l'.length / k = 0 := Nat.div_eq_of_lt (by omega)
        rw [h1, h2]

theorem mergeLastTwo_join {α : Type} (l : List (List α)) :
    (mergeLastTwo l).flatten = l.flatten := by
  unfold mergeLastTwo
  match h : l.reverse with
  | [] => rfl
  | [a] => rfl
  | a :: b :: rest =>
    have hl : l = (a :: b :: rest).reverse := by rw [← h, List.reverse_reverse]
    rw [hl]
    simp [List.flatten_append, List.append_assoc]

theorem mergeLastTwo_length {α : Type} (l : List (List α)) (h2 : 2 ≤ l.length) :
    (mergeLastTwo l).length = l.length - 1 := by
  unfold mergeLastTwo
  match h : l.reverse with
  | [] =>
    have : l = [] := by rw [← List.reverse_reverse l, h]; rfl
    subst this; simp at h2
  | [a] =>
    have : l.length = 1 := by rw [← List.length_reverse, h]; rfl
    omega
  | a :: b :: rest =>
    have hl : l.length = rest.length + 2 := by
      rw [← List.length_reverse, h]; simp
    simp [hl]

theorem mergeExcessAux_join {α : Type} :
    ∀ (fuel : Nat) (bs : List (List α)) (w : Nat),
      (mergeExcessAux fuel bs w).flatten = bs.flatten := by
  intro fuel
  induction fuel with
  | zero => intro bs w; rfl
  | succ n ih =>
    intro bs w
    unfold mergeExcessAux
    by_cases h : bs.length ≤ w
    · simp [h]
    · simp [h, ih, mergeLastTwo_join]

theorem mergeExcessAux_length {α : Type} :
    ∀ (fuel : Nat) (bs : List (List α)) (w : Nat), 1 ≤ w → bs.length - w ≤ fuel →
      (mergeExcessAux fuel bs w).length = min bs.length w := by
  intro fuel
  induction fuel with
  | zero =>
    intro bs w _ hf
    have : bs.length ≤ w := by omega
    simp [mergeExcessAux, Nat.min_eq_left this]
  | succ n ih =>
    intro bs w hw hf
    unfold mergeExcessAux
    by_cases h : bs.length ≤ w
    · simp [h, Nat.min_eq_left h]
    · have h2 : 2 ≤ bs.length := by omega
      simp only [h, if_false]
      rw [ih (mergeLastTwo bs) w hw (by rw [mergeLastTwo_length bs h2]; omega)]
      rw [mergeLastTwo_length bs h2]
      omega

/-- Every task appears in exactly one batch, in order: the batches rejoin to
the original list.  Holds for every worker bound. -/
theorem makeBatches_join {α : Type} (l : List α) (w : Nat) :
    (makeBatches l w).flatten = l := by
  unfold makeBatches
  rw [mergeExcessAux_join]
  exact chunksAux_join l.length l (batchSize l.length w) (le_max_left _ _) le_rfl

/-- The partition produces exactly `min w n` batches for a non-empty task
list and worker bound `w ≥ 1`. -/
theorem makeBatches_length {α : Type} (l : List α) (w : Nat) (hw : 1 ≤ w)
    (hne : l ≠ []) : (makeBatches l w).length = min w l.length := by
  have hn : 1 ≤ l.length := by
    cases l with
    | nil => exact absurd rfl hne
    | cons a l' => simp
  have hk : 1 ≤ batchSize l.length w := le_max_left _ _
  have hcount : (chunks l (batchSize l.length w)).length =
      (l.length + batchSize l.length w - 1) / batchSize l.length w :=
    chunksAux_length l.length l _ hk le_rfl
  unfold makeBatches
  rw [mergeExcessAux_length _ _ _ hw (by omega)]
  rw [hcount]
  rcases Nat.lt_or_ge l.length w with hlt | hge
  · -- fewer tasks than workers: batch size is 1, one task per batch
    have hdiv : l.length / w = 0 := Nat.div_eq_of_lt hlt
    have hbs : batchSize l.length w = 1 := by unfold batchSize; rw [hdiv]; rfl
    rw [hbs]
    simp
    omega
  · -- at least as many tasks as workers: batch size is n / w ≥ 1
    have hq : 1 ≤ l.length / w := Nat.one_le_div_iff (by omega) |>.mpr hge
    have hbs : batchSize l.length w = l.length / w := by
      unfold batchSize; omega
    rw [hbs]
    have hql : (l.length / w) * w ≤ l.length := Nat.div_mul_le_self _ _
    have hcge : w ≤ (l.length + l.length / w - 1) / (l.length / w) := by
      rw [Nat.le_div_iff_mul_le (by omega)]
      calc w * (l.length / w) = (l.length / w) * w := Nat.mul_comm _ _
        _ ≤ l.length := hql
        _ ≤ l.length + l.length / w - 1 := by omega
    omega

/-- Claim C6: for every non-empty task list of length `n` and configured
worker maximum `w ≥ 1`, the partition step (`process_courses`,
courses.py lines 1044-1053) produces exactly `min w n` batches that together
contain every task exactly once (their concatenation, in order, is the task
list), never more batches than `w`. -/
theorem claim_C6_partition (tasks : List CourseTask) (w : Nat)
    (hw : 1 ≤ w) (hne : tasks ≠ []) :
    (makeBatches tasks w).length = min w tasks.length ∧
      (makeBatches tasks w).flatten = tasks ∧
      (makeBatches tasks w).length ≤ w := by
  refine ⟨makeBatches_length tasks w hw hne, makeBatches_join tasks w, ?_⟩
  rw [makeBatches_length tasks w hw hne]
  exact Nat.min_le_left _ _

/-- Witness for claim C6 at a concrete input: 5 tasks, 2 workers. -/
theorem claim_C6_partition_witness :
    (makeBatches [sampleTask 1, sampleTask 2, sampleTask 3, sampleTask 4, sampleTask 5] 2).length
        = min 2 5 ∧
      (makeBatches [sampleTask 1, sampleTask 2, sampleTask 3, sampleTask 4, sampleTask 5] 2).flatten
        = [sampleTask 1, sampleTask 2, sampleTask 3, sampleTask 4, sampleTask 5] ∧
      (makeBatches [sampleTask 1, sampleTask 2, sampleTask 3, sampleTask 4, sampleTask 5] 2).length ≤ 2 :=
  claim_C6_partition _ 2 (by decide) (by decide)

theorem runCourses_none_spec (env : SlotEnv) :
    ∀ (ts : List CourseTask) (i : Nat) (fs : List String),
      (runCourses env i ts fs).2.2 = none →
        (runCourses env i ts fs).1.map (fun r => r.course_id)
            = ts.map (fun t => t.id) ∧
          (runCourses env i ts fs).1.length = ts.length := by
  intro ts
  induction ts with
  | nil => intro i fs _; exact ⟨rfl, rfl⟩
  | cons t ts ih =>
    intro i fs hnone
    cases hat : env.attempt i t with
    | exc e => simp [runCourses, hat] at hnone
    | ok c m =>
      have h2 : (runCourses env (i + 1) ts (fs ++ [c, m])).2.2 = none := by
        simpa [runCourses, hat] using hnone
      have := ih (i + 1) (fs ++ [c, m]) h2
      simp [runCourses, hat, okResult, this.1, this.2]
    | fail err =>
      have h2 : (runCourses env (i + 1) ts fs).2.2 = none := by
        simpa [runCourses, hat] using hnone
      have := ih (i + 1) fs h2
      simp [runCourses, hat, failedResult, this.1, this.2]

/-- In every path of the worker, the result list's course ids are exactly the
batch's course ids, in order, and in particular no task is dropped. -/
theorem worker_handle_course_ids (env : SlotEnv) (batch : List CourseTask)
    (fs : List String) :
    (worker_handle_course env batch fs).1.map (fun r => r.course_id)
        = batch.map (fun t => t.id) ∧
      (worker_handle_course env batch fs).1.length = batch.length := by
  unfold worker_handle_course
  by_cases hl : env.login = false
  · simp [hl, failedResult]
  · simp only [hl, if_false]
    cases hr : (runCourses env 0 batch fs).2.2 with
    | none =>
      have := runCourses_none_spec env batch 0 fs hr
      simp [hr, this.1, this.2]
    | some e => simp [hr, failedResult]

/-- Claim C2: if a worker slot's login fails, every task of the slot's batch
still yields an outcome — `success=False`, `error="Login failed"`, none
dropped (`worker_handle_course`, courses.py lines 950-963) — and the slot
performs exactly one login call (the body has a single unretried
`login(browser)` call site). -/
theorem claim_C2_login_failure (env : SlotEnv) (batch : List CourseTask)
    (fs : List String) (hlogin : env.login = false) :
    (worker_handle_course env batch fs).1
        = batch.map (fun t => failedResult t "Login failed") ∧
      (worker_handle_course env batch fs).1.length = batch.length ∧
      (∀ r ∈ (worker_handle_course env batch fs).1,
        r.success = false ∧ r.error = some "Login failed") ∧
      (worker_handle_course env batch fs).2.2 = 1 := by
  unfold worker_handle_course
  rw [if_pos hlogin]
  refine ⟨rfl, by simp, ?_, rfl⟩
  intro r hr
  rcases List.mem_map.mp hr with ⟨t, _, rfl⟩
  exact ⟨rfl, rfl⟩

/-- Witness for claim C2: a slot of two tasks whose login fails. -/
theorem claim_C2_login_failure_witness :
    (worker_handle_course ⟨false, fun _ _ => .ok "c" "m"⟩
          [sampleTask 1, sampleTask 2] []).1
        = [failedResult (sampleTask 1) "Login failed",
           failedResult (sampleTask 2) "Login failed"] ∧
      (worker_handle_course ⟨false, fun _ _ => .ok "c" "m"⟩
          [sampleTask 1, sampleTask 2] []).1.length = 2 ∧
      (∀ r ∈ (worker_handle_course ⟨false, fun _ _ => .ok "c" "m"⟩
          [sampleTask 1, sampleTask 2] []).1,
        r.success = false ∧ r.error = some "Login failed") ∧
      (worker_handle_course ⟨false, fun _ _ => .ok "c" "m"⟩
          [sampleTask 1, sampleTask 2] []).2.2 = 1 :=
  claim_C2_login_failure ⟨false, fun _ _ => .ok "c" "m"⟩
    [sampleTask 1, sampleTask 2] [] rfl

theorem runCourses_fs_mono (env : SlotEnv) :
    ∀ (ts : List CourseTask) (i : Nat) (fs : List String) (x : String),
      x ∈ fs → x ∈ (runCourses env i ts fs).2.1 := by
  intro ts
  induction ts with
  | nil => intro i fs x hx; exact hx
  | cons t ts ih =>
    intro i fs x hx
    cases hat : env.attempt i t with
    | exc e => simpa [runCourses, hat] using hx
    | ok c m =>
      simp only [runCourses, hat]
      exact ih (i + 1) (fs ++ [c, m]) x (List.mem_append_left _ hx)
    | fail err =>
      simp only [runCourses, hat]
      exact ih (i + 1) fs x hx

theorem runCourses_first_exc (env : SlotEnv) :
    ∀ (ts : List CourseTask) (i : Nat) (fs : List String) (k : Nat) (e : String)
      (hk : k < ts.length),
      env.attempt (i + k) (ts.get ⟨k, hk⟩) = .exc e →
      (∀ (j : Nat) (hj : j < k) (hj2 : j < ts.length) (e' : String),
        env.attempt (i + j) (ts.get ⟨j, hj2⟩) ≠ .exc e') →
      (runCourses env i ts fs).2.2 = some e ∧
        (∀ (j : Nat) (hj : j < k) (hj2 : j < ts.length) (c m : String),
          env.attempt (i + j) (ts.get ⟨j, hj2⟩) = .ok c m →
            c ∈ (runCourses env i ts fs).2.1 ∧
              m ∈ (runCourses env i ts fs).2.1) := by
  intro ts
  induction ts with
  | nil => intro i fs k e hk; exact absurd hk (by simp)
  | cons t ts ih =>
    intro i fs k e hk hexc hfirst
    match k with
    | 0 =>
      have hat : env.attempt i t = .exc e := by simpa using hexc
      constructor
      · simp [runCourses, hat]
      · intro j hj; omega
    | k' + 1 =>
      have hne0 : ∀ (e' : String), env.attempt i t ≠ .exc e' := by
        intro e'
        have := hfirst 0 (by omega) (by simp) e'
        simpa using this
      have hexc' : env.attempt (i + 1 + k') (ts.get ⟨k', by simpa using Nat.lt_of_succ_lt_succ hk⟩)
          = .exc e := by
        have : i + 1 + k' = i + (k' + 1) := by omega
        rw [this]
        simpa using hexc
      have hfirst' : ∀ (j : Nat) (hj : j < k') (hj2 : j < ts.length) (e' : String),
          env.attempt (i + 1 + j) (ts.get ⟨j, hj2⟩) ≠ .exc e' := by
        intro j hj hj2 e'
        have h := hfirst (j + 1) (by omega) (by simpa using Nat.succ_lt_succ hj2) e'
        have heq : i + (j + 1) = i + 1 + j := by omega
        rw [heq] at h
        simpa using h
      cases hat : env.attempt i t with
      | exc e'' => exact absurd hat (hne0 e'')
      | ok c m =>
        have hrec := ih (i + 1) (fs ++ [c, m]) k' e
          (by simpa using Nat.lt_of_succ_lt_succ hk) hexc' hfirst'
        refine ⟨by simpa [runCourses, hat] using hrec.1, ?_⟩
        intro j hj hj2 c' m' hok
        match j with
        | 0 =>
          have hok2 : env.attempt i t = CourseAttempt.ok c' m' := by simpa using hok
          have : CourseAttempt.ok c m = CourseAttempt.ok c' m' := hat.symm.trans hok2
          obtain ⟨rfl, rfl⟩ : c = c' ∧ m = m' := by
            injection this with h1 h2; exact ⟨h1, h2⟩
          constructor
          · simp only [runCourses, hat]
            exact runCourses_fs_mono env ts (i + 1) (fs ++ [c, m]) c (by simp)
          · simp only [runCourses, hat]
            exact runCourses_fs_mono env ts (i + 1) (fs ++ [c, m]) m (by simp)
        | j' + 1 =>
          have hj2' : j' < ts.length := by simpa using Nat.lt_of_succ_lt_succ hj2
          have hok' : env.attempt (i + 1 + j') (ts.get ⟨j', hj2'⟩) = .ok c' m' := by
            have heq : i + (j' + 1) = i + 1 + j' := by omega
            rw [← heq]
            simpa using hok
          have := hrec.2 j' (by omega) hj2' c' m' hok'
          constructor
          · simpa [runCourses, hat] using this.1
          · simpa [runCourses, hat] using this.2
      | fail err =>
        have hrec := ih (i + 1) fs k' e
          (by simpa using Nat.lt_of_succ_lt_succ hk) hexc' hfirst'
        refine ⟨by simpa [runCourses, hat] using hrec.1, ?_⟩
        intro j hj hj2 c' m' hok
        match j with
        | 0 =>
          exact absurd (by simpa using hok) (by rw [hat]; intro h; cases h)
        | j' + 1 =>
          have hj2' : j' < ts.length := by simpa using Nat.lt_of_succ_lt_succ hj2
          have hok' : env.attempt (i + 1 + j') (ts.get ⟨j', hj2'⟩) = .ok c' m' := by
            have heq : i + (j' + 1) = i + 1 + j' := by omega
            rw [← heq]
            simpa using hok
          have := hrec.2 j' (by omega) hj2' c' m' hok'
          constructor
          · simpa [runCourses, hat] using this.1
          · simpa [runCourses, hat] using this.2

/-- Claim C10 (implicit): when an exception escapes the per-course export
step at position `k` of a worker's batch, the worker's `except` branch
replaces the whole collected result list by a failed outcome carrying
`str(e)` for EVERY course of the batch — earlier successes included — while
the CSV/Markdown artifacts those earlier successes persisted remain in the
artifact store (`worker_handle_course`, courses.py lines 965-987). -/
theorem claim_C10_exception_replaces_results (env : SlotEnv)
    (batch : List CourseTask) (fs : List String) (k : Nat) (e : String)
    (hlogin : env.login = true) (hk : k < batch.length)
    (hexc : env.attempt k (batch.get ⟨k, hk⟩) = .exc e)
    (hfirst : ∀ (j : Nat) (hj : j < k) (hj2 : j < batch.length) (e' : String),
      env.attempt j (batch.get ⟨j, hj2⟩) ≠ .exc e') :
    (worker_handle_course env batch fs).1
        = batch.map (fun t => failedResult t e) ∧
      (worker_handle_course env batch fs).1.length = batch.length ∧
      (∀ r ∈ (worker_handle_course env batch fs).1,
        r.success = false ∧ r.error = some e) ∧
      (∀ (j : Nat) (hj : j < k) (hj2 : j < batch.length) (c m : String),
        env.attempt j (batch.get ⟨j, hj2⟩) = .ok c m →
          c ∈ (worker_handle_course env batch fs).2.1 ∧
            m ∈ (worker_handle_course env batch fs).2.1) := by
  have hexc0 : env.attempt (0 + k) (batch.get ⟨k, hk⟩) = .exc e := by simpa using hexc
  have hfirst0 : ∀ (j : Nat) (hj : j < k) (hj2 : j < batch.length) (e' : String),
      env.attempt (0 + j) (batch.get ⟨j, hj2⟩) ≠ .exc e' := by
    intro j hj hj2 e'; simpa using hfirst j hj hj2 e'
  have hspec := runCourses_first_exc env batch 0 fs k e hk hexc0 hfirst0
  have hlneg : ¬(env.login = false) := by simp [hlogin]
  constructor
  · unfold worker_handle_course
    rw [if_neg hlneg]
    simp [hspec.1]
  constructor
  · unfold worker_handle_course
    rw [if_neg hlneg]
    simp [hspec.1]
  constructor
  · intro r hr
    unfold worker_handle_course at hr
    rw [if_neg hlneg] at hr
    simp only [hspec.1] at hr
    rcases List.mem_map.mp hr with ⟨t, _, rfl⟩
    exact ⟨rfl, rfl⟩
  · intro j hj hj2 c m hok
    have hok0 : env.attempt (0 + j) (batch.get ⟨j, hj2⟩) = .ok c m := by simpa using hok
    have := hspec.2 j hj hj2 c m hok0
    constructor
    · unfold worker_handle_course
      rw [if_neg hlneg]
      simpa [hspec.1] using this.1
    · unfold worker_handle_course
      rw [if_neg hlneg]
      simpa [hspec.1] using this.2

/-- Witness for claim C10: after course 0 succeeded, course 1 raises; both
results are failures with the exception text, and course 0's artifacts are
still present. -/
theorem claim_C10_exception_replaces_results_witness :
    (worker_handle_course c10SlotEnv [sampleTask 1, sampleTask 2] []).1
        = [failedResult (sampleTask 1) "boom", failedResult (sampleTask 2) "boom"] ∧
      (worker_handle_course c10SlotEnv [sampleTask 1, sampleTask 2] []).1.length = 2 ∧
      (∀ r ∈ (worker_handle_course c10SlotEnv [sampleTask 1, sampleTask 2] []).1,
        r.success = false ∧ r.error = some "boom") ∧
      (∀ (j : Nat) (hj : j < 1) (hj2 : j < 2) (c m : String),
        c10SlotEnv.attempt j (([sampleTask 1, sampleTask 2] : List CourseTask).get ⟨j, hj2⟩)
            = .ok c m →
          c ∈ (worker_handle_course c10SlotEnv [sampleTask 1, sampleTask 2] []).2.1 ∧
            m ∈ (worker_handle_course c10SlotEnv [sampleTask 1, sampleTask 2] []).2.1) := by
  have h := claim_C10_exception_replaces_results c10SlotEnv
    [sampleTask 1, sampleTask 2] [] 1 "boom" rfl (by decide)
    (by simp [c10SlotEnv])
    (by intro j hj hj2 e'
        have : j = 0 := by omega
        subst this
        simp [c10SlotEnv])
  exact ⟨by simpa using h.1, by simpa using h.2.1, h.2.2.1, h.2.2.2⟩

theorem workerOutput_ids (env : OrchestraEnv) (batches : List (List CourseTask))
    (wid : Nat) :
    (workerOutput env batches wid).map (fun r => r.course_id)
        = (batches.getD wid []).map (fun t => t.id) := by
  unfold workerOutput
  cases h : env.futureExc wid with
  | some e => simp [futureFailResult]
  | none => exact (worker_handle_course_ids (env.slot wid) (batches.getD wid []) []).1

theorem countP_add_countP_not {α : Type} (p : α → Bool) (l : List α) :
    l.countP p + l.countP (fun a => !(p a)) = l.length := by
  induction l with
  | nil => rfl
  | cons a l ih =>
    cases hpa : p a <;> simp [List.countP_cons, hpa] <;> omega

theorem perm_flatten {α : Type} {l₁ l₂ : List (List α)} (h : List.Perm l₁ l₂) :
    List.Perm l₁.flatten l₂.flatten := by
  induction h with
  | nil => exact List.Perm.refl _
  | cons x _ ih => simpa [List.flatten_cons] using ih.append_left x
  | swap x y l =>
    simp only [List.flatten_cons, ← List.append_assoc]
    exact (List.perm_append_comm).append_right _
  | trans _ _ ih₁ ih₂ => exact ih₁.trans ih₂

theorem map_getD_range {β γ : Type} (d : β) (f : β → γ) :
    ∀ (bs : List β),
      (List.range bs.length).map (fun i => f (bs.getD i d)) = bs.map f := by
  intro bs
  induction bs with
  | nil => rfl
  | cons b bs ih =>
    have hcomp : ((fun i => f ((b :: bs).getD i d)) ∘ (fun i => i + 1))
        = fun i => f (bs.getD i d) := by
      funext i
      simp [List.getD_cons_succ]
    calc (List.range (b :: bs).length).map (fun i => f ((b :: bs).getD i d))
        = f b :: (List.range bs.length).map (fun i => f (bs.getD i d)) := by
          rw [List.length_cons, List.range_succ_eq_map, List.map_cons, List.map_map, hcomp]
          simp [List.getD_cons_zero]
      _ = (b :: bs).map f := by rw [ih]; rfl

/-- Claim C1: for every batch of `n` submitted course tasks, the batch run
(`process_courses`) produces a result list with exactly one outcome per
submitted task — length `n`, course ids a permutation of the submitted ids —
and derived counts `successful + failed = n`, for EVERY assignment of slot
behaviours (login failures, mid-batch exceptions, futures raising) and every
completion order of the workers. -/
theorem claim_C1_outcome_completeness (env : OrchestraEnv)
    (tasks : List CourseTask) (w : Nat) (order : List Nat)
    (hw : 1 ≤ w) (hne : tasks ≠ [])
    (hord : List.Perm order (List.range (makeBatches tasks w).length)) :
    (process_courses env tasks w order).length = tasks.length ∧
      successCount (process_courses env tasks w order)
          + failedCount (process_courses env tasks w order) = tasks.length ∧
      List.Perm ((process_courses env tasks w order).map (fun r => r.course_id))
        (tasks.map (fun t => t.id)) := by
  have hperm : List.Perm
      ((process_courses env tasks w order).map (fun r => r.course_id))
      (tasks.map (fun t => t.id)) := by
    unfold process_courses
    rw [List.map_flatten, List.map_map]
    have hfn : ((List.map fun r => r.course_id) ∘ workerOutput env (makeBatches tasks w))
        = fun i => ((makeBatches tasks w).getD i []).map (fun t => t.id) := by
      funext i
      exact workerOutput_ids env (makeBatches tasks w) i
    rw [hfn]
    have h1 := (hord.map (fun i => ((makeBatches tasks w).getD i []).map (fun t => t.id)))
    have h2 := perm_flatten h1
    refine h2.trans ?_
    rw [map_getD_range ([] : List CourseTask) (fun b => b.map (fun t => t.id))]
    rw [← List.map_flatten, makeBatches_join]
  refine ⟨?_, ?_, hperm⟩
  · have := hperm.length_eq
    simpa using this
  · have hlen : (process_courses env tasks w order).length = tasks.length := by
      have := hperm.length_eq
      simpa using this
    unfold successCount failedCount
    rw [countP_add_countP_not, hlen]

/-- Witness for claim C1: 5 tasks, 3 workers, every catastrophic failure mode
present at once, collected in completion order `[2, 0, 1]`. -/
theorem claim_C1_outcome_completeness_witness :
    (process_courses c1Orchestra c1Tasks 3 [2, 0, 1]).length = c1Tasks.length ∧
      successCount (process_courses c1Orchestra c1Tasks 3 [2, 0, 1])
          + failedCount (process_courses c1Orchestra c1Tasks 3 [2, 0, 1])
          = c1Tasks.length ∧
      List.Perm
        ((process_courses c1Orchestra c1Tasks 3 [2, 0, 1]).map (fun r => r.course_id))
        (c1Tasks.map (fun t => t.id)) :=
  claim_C1_outcome_completeness c1Orchestra c1Tasks 3 [2, 0, 1]
    (by decide) (by decide) (by decide)

theorem maxByCtime_mem (env : DownloadEnv) :
    ∀ (rest : List String) (f : String), maxByCtime env f rest ∈ f :: rest := by
  intro rest
  induction rest with
  | nil => intro f; simp [maxByCtime]
  | cons x rest ih =>
    intro f
    unfold maxByCtime
    rw [List.foldl_cons]
    by_cases h : env.ctime f < env.ctime x
    · rw [if_pos h]
      have := ih x
      simp only [maxByCtime] at this
      rcases List.mem_cons.mp this with h1 | h1
      · exact List.mem_cons.mpr (Or.inr (List.mem_cons.mpr (Or.inl h1)))
      · exact List.mem_cons.mpr (Or.inr (List.mem_cons.mpr (Or.inr h1)))
    · rw [if_neg h]
      have := ih f
      simp only [maxByCtime] at this
      rcases List.mem_cons.mp this with h1 | h1
      · exact List.mem_cons.mpr (Or.inl h1)
      · exact List.mem_cons.mpr (Or.inr (List.mem_cons.mpr (Or.inr h1)))

theorem probeLoop_stable (env : DownloadEnv) (f : String) :
    ∀ (iters prev t : Nat), (probeLoop env f iters prev t).1 = true →
      (env.size f t = prev ∧ 0 < prev) ∨
        ∃ t0, t ≤ t0 ∧ env.size f (t0 + 1) = env.size f t0 ∧ 0 < env.size f t0 := by
  intro iters
  induction iters with
  | zero => intro prev t h; simp [probeLoop] at h
  | succ n ih =>
    intro prev t h
    by_cases hc : env.size f t = prev ∧ 0 < env.size f t
    · exact Or.inl ⟨hc.1, hc.1 ▸ hc.2⟩
    · have hrec : (probeLoop env f n (env.size f t) (t + 1)).1 = true := by
        unfold probeLoop at h
        simp only at h
        rw [if_neg hc] at h
        exact h
      rcases ih (env.size f t) (t + 1) hrec with h1 | ⟨t0, ht0, heq, hpos⟩
      · exact Or.inr ⟨t, le_refl t, h1.1, h1.1 ▸ h1.2⟩
      · exact Or.inr ⟨t0, by omega, heq, hpos⟩

theorem waitLoop_some_spec (env : DownloadEnv) (initialFiles : List String)
    (timeout : Nat) :
    ∀ (fuel t : Nat) (f : String),
      waitLoop env initialFiles timeout fuel t = some f →
        f ∉ initialFiles ∧ f.endsWith ".csv" = true ∧
          ∃ t0, env.size f (t0 + 1) = env.size f t0 ∧ 0 < env.size f t0 := by
  intro fuel
  induction fuel with
  | zero => intro t f h; simp [waitLoop] at h
  | succ n ih =>
    intro t f h
    unfold waitLoop at h
    by_cases hto : timeout ≤ t
    · rw [if_pos hto] at h; cases h
    · rw [if_neg hto] at h
      cases hnew : newCsvFiles env initialFiles t with
      | nil =>
        rw [hnew] at h
        exact ih (t + 1) f h
      | cons f0 rest =>
        rw [hnew] at h
        simp only at h
        by_cases hp : (probeLoop env (maxByCtime env f0 rest) 3 0 t).1 = true
        · rw [if_pos hp] at h
          have hf : maxByCtime env f0 rest = f := Option.some.inj h
          have hmem : f ∈ f0 :: rest := hf ▸ maxByCtime_mem env rest f0
          rw [← hnew] at hmem
          have hfil := List.mem_filter.mp hmem
          have hprops := hfil.2
          simp only [Bool.and_eq_true, decide_eq_true_eq] at hprops
          refine ⟨hprops.1, hprops.2, ?_⟩
          rcases probeLoop_stable env f 3 0 t (hf ▸ hp) with ⟨_, hpos⟩ | ⟨t0, _, heq, hpos⟩
          · exact absurd hpos (by omega)
          · exact ⟨t0, heq, hpos⟩
        · rw [if_neg hp] at h
          exact ih _ f h

/-- Claim C8: a course page that never presents a clickable gradebook tab
within the element wait makes the state machine terminate immediately with
`success=False` and error exactly "Failed to click on the gradebook tab";
no later export stage (export trigger, refresh, download, transform) is
executed (`execute_gradebook_actions` lines 807-815 and
`GradebookManager.click_gradebook_tab`). -/
theorem claim_C8_gradebook_tab_fail_fast (env : UiEnv) (t : CourseTask)
    (h : env.tabClickable = false) :
    (execute_gradebook_actions env t).1
        = failedResult t "Failed to click on the gradebook tab" ∧
      (execute_gradebook_actions env t).1.success = false ∧
      (execute_gradebook_actions env t).1.error
        = some "Failed to click on the gradebook tab" ∧
      (execute_gradebook_actions env t).2 = [Stage.gradebookTab] ∧
      Stage.exportAll ∉ (execute_gradebook_actions env t).2 ∧
      Stage.refreshList ∉ (execute_gradebook_actions env t).2 ∧
      Stage.download ∉ (execute_gradebook_actions env t).2 := by
  unfold execute_gradebook_actions
  rw [if_pos h]
  refine ⟨rfl, rfl, rfl, rfl, by simp, by simp, by simp⟩

/-- Witness for claim C8 at a concrete environment. -/
theorem claim_C8_gradebook_tab_fail_fast_witness :
    (execute_gradebook_actions c8UiEnv (sampleTask 8)).1
        = failedResult (sampleTask 8) "Failed to click on the gradebook tab" ∧
      (execute_gradebook_actions c8UiEnv (sampleTask 8)).1.success = false ∧
      (execute_gradebook_actions c8UiEnv (sampleTask 8)).1.error
        = some "Failed to click on the gradebook tab" ∧
      (execute_gradebook_actions c8UiEnv (sampleTask 8)).2 = [Stage.gradebookTab] ∧
      Stage.exportAll ∉ (execute_gradebook_actions c8UiEnv (sampleTask 8)).2 ∧
      Stage.refreshList ∉ (execute_gradebook_actions c8UiEnv (sampleTask 8)).2 ∧
      Stage.download ∉ (execute_gradebook_actions c8UiEnv (sampleTask 8)).2 :=
  claim_C8_gradebook_tab_fail_fast c8UiEnv (sampleTask 8) rfl

/-- Claim C5: the download wait returns a filename only for a newly appeared
`.csv` file whose size was observed positive and unchanged across two
consecutive one-second checks (a still-growing file is never returned), and
when no file stabilises within the timeout the task's outcome carries
`success=False` with error
"Download failed - CSV file not found after export"
(`wait_for_parallel_download` and its caller `execute_gradebook_actions`). -/
theorem claim_C5_download_stability (env : UiEnv) (t : CourseTask) :
    (∀ f : String,
      wait_for_parallel_download env.download env.downloadTimeout = some f →
        f ∉ env.download.listing 0 ∧ f.endsWith ".csv" = true ∧
          ∃ t0, env.download.size f (t0 + 1) = env.download.size f t0 ∧
            0 < env.download.size f t0) ∧
    (env.tabClickable = true → env.dropdownOk = true → env.exportAllOk = true →
      env.refreshOk = true → env.openListOk = true → env.exportLinkFound = true →
      env.clickIntercepted = false →
      wait_for_parallel_download env.download env.downloadTimeout = none →
      (execute_gradebook_actions env t).1
        = failedResult t "Download failed - CSV file not found after export" ∧
      (execute_gradebook_actions env t).1.success = false) := by
  constructor
  · intro f h
    exact waitLoop_some_spec env.download (env.download.listing 0)
      env.downloadTimeout (env.downloadTimeout + 1) 0 f h
  · intro h1 h2 h3 h4 h5 h6 h7 hnone
    unfold execute_gradebook_actions
    rw [if_neg (by simp [h1]), if_neg (by simp [h2]), if_neg (by simp [h3]),
      if_neg (by simp [h4]), if_neg (by simp [h5]), if_neg (by simp [h6]),
      if_neg (by simp [h7])]
    rw [hnone]
    exact ⟨rfl, rfl⟩

/-- Witness for claim C5: a directory that never receives a file leads to the
exact download-failure outcome. -/
theorem claim_C5_download_stability_witness :
    (execute_gradebook_actions c5UiEnv (sampleTask 9)).1
        = failedResult (sampleTask 9)
            "Download failed - CSV file not found after export" ∧
      (execute_gradebook_actions c5UiEnv (sampleTask 9)).1.success = false :=
  (claim_C5_download_stability c5UiEnv (sampleTask 9)).2
    rfl rfl rfl rfl rfl rfl rfl (by decide)

theorem foldl_collectStep_eq (anchors : List Anchor) :
    ∀ (acc : List (String × String)) (seen : List String),
      (anchors.foldl collectStep (acc, seen)).1
        = acc ++ firstSeenDedup (anchors.filterMap anchorPair) seen := by
  induction anchors with
  | nil => intro acc seen; simp [firstSeenDedup]
  | cons a anchors ih =>
    intro acc seen
    rw [List.foldl_cons]
    cases hap : anchorPair a with
    | none =>
      simp only [collectStep, hap]
      rw [ih acc seen, List.filterMap_cons]
      simp [hap]
    | some p =>
      obtain ⟨u, n⟩ := p
      simp only [collectStep, hap]
      by_cases hu : u ∈ seen
      · rw [if_pos hu, ih acc seen, List.filterMap_cons]
        simp [hap, firstSeenDedup, hu]
      · rw [if_neg hu, ih (acc ++ [(u, n)]) (u :: seen), List.filterMap_cons]
        simp [hap, firstSeenDedup, hu, List.append_assoc]

theorem firstSeenDedup_nodup :
    ∀ (pairs : List (String × String)) (seen : List String),
      ((firstSeenDedup pairs seen).map Prod.fst).Nodup ∧
        ∀ u ∈ (firstSeenDedup pairs seen).map Prod.fst, u ∉ seen := by
  intro pairs
  induction pairs with
  | nil => intro seen; simp [firstSeenDedup]
  | cons p rest ih =>
    obtain ⟨u, n⟩ := p
    intro seen
    unfold firstSeenDedup
    by_cases hu : u ∈ seen
    · rw [if_pos hu]; exact ih seen
    · rw [if_neg hu]
      have h := ih (u :: seen)
      constructor
      · rw [List.map_cons]
        refine List.nodup_cons.mpr ⟨?_, h.1⟩
        intro hmem
        exact (h.2 u hmem) (List.mem_cons_self u seen)
      · intro v hv
        rw [List.map_cons] at hv
        rcases List.mem_cons.mp hv with rfl | hv2
        · exact hu
        · intro hvs
          exact (h.2 v hv2) (List.mem_cons_of_mem u hvs)

theorem firstSeenDedup_sublist :
    ∀ (pairs : List (String × String)) (seen : List String),
      List.Sublist (firstSeenDedup pairs seen) pairs := by
  intro pairs
  induction pairs with
  | nil => intro seen; simp [firstSeenDedup]
  | cons p rest ih =>
    obtain ⟨u, n⟩ := p
    intro seen
    unfold firstSeenDedup
    by_cases hu : u ∈ seen
    · rw [if_pos hu]
      exact List.Sublist.cons (u, n) (ih seen)
    · rw [if_neg hu]
      exact List.Sublist.cons₂ (u, n) (ih (u :: seen))

theorem zip_of_unzip {α β : Type} :
    ∀ (l : List (α × β)), (l.map Prod.fst).zip (l.map Prod.snd) = l := by
  intro l
  induction l with
  | nil => rfl
  | cons p rest ih => simp [ih]

/-- Claim C7: the course collector returns two lists of equal length,
positionally corresponding pair-by-pair (their zip is exactly the valid
anchor pairs in first-seen order with URL duplicates skipped, a subsequence
of the page traversal), with no URL recorded twice; on a failed login or an
escaped exception it returns `([], [])`, never mismatched lists
(`collect_course_data`, courses.py lines 308-370). -/
theorem claim_C7_collector_contract (excRaised : Bool)
    (pages : List (List Anchor)) :
    (collect_course_data excRaised pages).1.length
        = (collect_course_data excRaised pages).2.length ∧
      (collect_course_data excRaised pages).1.Nodup ∧
      (excRaised = true → collect_course_data excRaised pages = ([], [])) ∧
      (excRaised = false →
        (collect_course_data excRaised pages).1.zip
            (collect_course_data excRaised pages).2
            = firstSeenDedup (validPairs pages) [] ∧
          List.Sublist
            ((collect_course_data excRaised pages).1.zip
              (collect_course_data excRaised pages).2)
            (validPairs pages)) := by
  cases excRaised with
  | true =>
    refine ⟨rfl, List.nodup_nil, fun _ => rfl, fun h => by cases h⟩
  | false =>
    have hdata : (pages.flatten.foldl collectStep ([], [])).1
        = firstSeenDedup (validPairs pages) [] := by
      rw [foldl_collectStep_eq pages.flatten [] []]
      rfl
    have hzip : (collect_course_data false pages).1.zip
        (collect_course_data false pages).2
        = firstSeenDedup (validPairs pages) [] := by
      show (((pages.flatten.foldl collectStep ([], [])).1.map Prod.fst).zip
        ((pages.flatten.foldl collectStep ([], [])).1.map Prod.snd)) = _
      rw [zip_of_unzip, hdata]
    refine ⟨?_, ?_, ?_, ?_⟩
    · show ((pages.flatten.foldl collectStep ([], [])).1.map Prod.fst).length
        = ((pages.flatten.foldl collectStep ([], [])).1.map Prod.snd).length
      simp
    · show ((pages.flatten.foldl collectStep ([], [])).1.map Prod.fst).Nodup
      rw [hdata]
      exact (firstSeenDedup_nodup (validPairs pages) []).1
    · intro h
      exact absurd h (by decide)
    · intro _
      refine ⟨hzip, ?_⟩
      rw [hzip]
      exact firstSeenDedup_sublist (validPairs pages) []

/-- Witness for claim C7 on a concrete page traversal with a missing href,
an empty URL, a duplicate URL and a whitespace-padded name. -/
theorem claim_C7_collector_contract_witness :
    (collect_course_data false
          [[⟨some "u1", " A "⟩, ⟨none, "B"⟩, ⟨some "", "C"⟩, ⟨some "u1", "D"⟩],
            [⟨some "u2", "E"⟩]]).1.length
        = (collect_course_data false
            [[⟨some "u1", " A "⟩, ⟨none, "B"⟩, ⟨some "", "C"⟩, ⟨some "u1", "D"⟩],
              [⟨some "u2", "E"⟩]]).2.length ∧
      (collect_course_data false
          [[⟨some "u1", " A "⟩, ⟨none, "B"⟩, ⟨some "", "C"⟩, ⟨some "u1", "D"⟩],
            [⟨some "u2", "E"⟩]]).1.Nodup ∧
      (collect_course_data false
            [[⟨some "u1", " A "⟩, ⟨none, "B"⟩, ⟨some "", "C"⟩, ⟨some "u1", "D"⟩],
              [⟨some "u2", "E"⟩]]).1.zip
          (collect_course_data false
            [[⟨some "u1", " A "⟩, ⟨none, "B"⟩, ⟨some "", "C"⟩, ⟨some "u1", "D"⟩],
              [⟨some "u2", "E"⟩]]).2
        = firstSeenDedup
            (validPairs
              [[⟨some "u1", " A "⟩, ⟨none, "B"⟩, ⟨some "", "C"⟩, ⟨some "u1", "D"⟩],
                [⟨some "u2", "E"⟩]]) [] := by
  have h := claim_C7_collector_contract false
    [[⟨some "u1", " A "⟩, ⟨none, "B"⟩, ⟨some "", "C"⟩, ⟨some "u1", "D"⟩],
      [⟨some "u2", "E"⟩]]
  exact ⟨h.1, h.2.1, (h.2.2.2 rfl).1⟩

theorem cleanedLines_map (l : List String) (hall : ∀ r ∈ l, pyStrip r ≠ "") :
    cleanedLines l = l.map (fun r => cleanLine (pyStrip r)) := by
  induction l with
  | nil => rfl
  | cons a l ih =>
    unfold cleanedLines
    rw [List.filterMap_cons, if_neg (hall a (List.mem_cons_self a l))]
    unfold cleanedLines at ih
    rw [ih (fun r hr => hall r (List.mem_cons_of_mem a hr)), List.map_cons]

theorem buildDataFrame_layout (h m : String) (dataRows : List String)
    (cid cname : String)
    (hh : pyStrip h ≠ "") (hm : pyStrip m ≠ "")
    (hd : ∀ r ∈ dataRows, pyStrip r ≠ "")
    (hw : (parseFields (cleanLine (pyStrip h))).length
        = commaCount (cleanLine (pyStrip h)) + 1) :
    buildDataFrame (h :: m :: dataRows) cid cname
      = some ⟨"COURSE_ID" :: "COURSE_NAME" ::
          filterByKeep (keepMask (cleanLine (pyStrip h)))
            ((headerNames (parseFields (cleanLine (pyStrip h)))).map cleanColName),
        dataRows.map (fun r =>
          finalRow (commaCount (cleanLine (pyStrip h)) + 1)
            (keepMask (cleanLine (pyStrip h))) cid cname (cleanLine (pyStrip r)))⟩ := by
  have hclean : cleanedLines (h :: m :: dataRows)
      = cleanLine (pyStrip h) :: cleanLine (pyStrip m)
          :: dataRows.map (fun r => cleanLine (pyStrip r)) := by
    unfold cleanedLines
    rw [List.filterMap_cons, if_neg hh, List.filterMap_cons, if_neg hm]
    rw [show (dataRows.filterMap fun l =>
        if pyStrip l = "" then none else some (cleanLine (pyStrip l)))
        = cleanedLines dataRows from rfl]
    rw [cleanedLines_map dataRows hd]
  unfold buildDataFrame
  rw [hclean]
  simp only [List.drop_succ_cons, List.drop_zero]
  rw [if_neg (fun hcon => hcon hw), List.map_map]
  rfl

/-- Amended claim C3: PROVIDED the raw table follows the layout the
transform assumes — a header line, then the points-possible metadata row,
then `R` data rows, none blank after stripping, with the cleaned header
parsing into exactly its comma-count-plus-one fields — the emitted machine
table has exactly `R` rows, row `i` being the transform of data row `i`
(original order, none dropped), with the course id at position 0 and the
course name at position 1 of every row, under headers starting
`COURSE_ID, COURSE_NAME`.  (The unamended claim fails because
`process_csv_file` drops the physical line after the header unconditionally
via `skiprows=[1]`; see the counterexample.) -/
theorem claim_C3_amended_row_preservation (h m : String)
    (dataRows : List String) (cid cname : String)
    (hh : pyStrip h ≠ "") (hm : pyStrip m ≠ "")
    (hd : ∀ r ∈ dataRows, pyStrip r ≠ "")
    (hw : (parseFields (cleanLine (pyStrip h))).length
        = commaCount (cleanLine (pyStrip h)) + 1) :
    ∃ df : PyFrame, buildDataFrame (h :: m :: dataRows) cid cname = some df ∧
      df.rows.length = dataRows.length ∧
      df.rows = dataRows.map (fun r =>
        finalRow (commaCount (cleanLine (pyStrip h)) + 1)
          (keepMask (cleanLine (pyStrip h))) cid cname (cleanLine (pyStrip r))) ∧
      df.headers.head? = some "COURSE_ID" ∧
      (df.headers.drop 1).head? = some "COURSE_NAME" ∧
      ∀ row ∈ df.rows, row.head? = some cid ∧ (row.drop 1).head? = some cname := by
  refine ⟨_, buildDataFrame_layout h m dataRows cid cname hh hm hd hw,
    by simp, rfl, rfl, rfl, ?_⟩
  intro row hrow
  rcases List.mem_map.mp hrow with ⟨r, _, rfl⟩
  exact ⟨rfl, rfl⟩

/-- Witness for the amended claim C3 on a two-student table carrying the
metadata row. -/
theorem claim_C3_amended_row_preservation_witness :
    ∃ df : PyFrame,
      buildDataFrame ["NAME, EMAIL", "Points Possible, 100", "alice, a@x", "bob, b@x"]
          "7" "Course 7" = some df ∧
        df.rows.length
            = (["alice, a@x", "bob, b@x"] : List String).length ∧
        df.rows = (["alice, a@x", "bob, b@x"] : List String).map (fun r =>
          finalRow (commaCount (cleanLine (pyStrip "NAME, EMAIL")) + 1)
            (keepMask (cleanLine (pyStrip "NAME, EMAIL"))) "7" "Course 7"
            (cleanLine (pyStrip r))) ∧
        df.headers.head? = some "COURSE_ID" ∧
        (df.headers.drop 1).head? = some "COURSE_NAME" ∧
        ∀ row ∈ df.rows, row.head? = some "7" ∧ (row.drop 1).head? = some "Course 7" :=
  claim_C3_amended_row_preservation "NAME, EMAIL" "Points Possible, 100"
    ["alice, a@x", "bob, b@x"] "7" "Course 7"
    (by decide) (by decide) (by decide) (by decide)

/-- Counterexample to claim C3 as stated: a raw table with two data rows
(`alice` and `bob`, both student records; no points-possible metadata row)
emits a table with ONE row — `skiprows=[1]` silently drops `alice` — not
two, so "for every raw downloaded table with R data rows the emitted table
has exactly R rows" is false on the code. -/
theorem claim_C3_counterexample :
    buildDataFrame ["NAME,EMAIL", "alice,a@x", "bob,b@x"] "X" "Y"
        = some ⟨["COURSE_ID", "COURSE_NAME", "NAME", "EMAIL"],
            [["X", "Y", "bob", "b@x"]]⟩ ∧
      (["alice,a@x", "bob,b@x"] : List String).length = 2 ∧
      ([["X", "Y", "bob", "b@x"]] : List (List String)).length = 1 ∧
      (1 : Nat) ≠ 2 := by decide

theorem processCsvBody_ok_true (env : TransformEnv) (cid cname fname : String) :
    ∀ r, processCsvBody env cid cname fname = .ok r → r.1 = true := by
  intro r h
  unfold processCsvBody at h
  repeat' split at h
  all_goals simp_all
  all_goals rw [← h]

/-- Claim C4: `process_csv_file` always hands its caller a tri-state
triple — a missing input file and every exception raised inside the `try`
body (IO failure, pandas parse error) produce exactly `(False, "", "")`,
and every returned triple is either that failure triple or a success with
first component `True`; no exception crosses the boundary (the function is
the total catch of its fallible body). -/
theorem claim_C4_transform_tristate (env : TransformEnv)
    (cid cname fname : String) :
    (env.fileExists = false → process_csv_file env cid cname fname = (false, "", "")) ∧
      (∀ e, processCsvBody env cid cname fname = .error e →
        process_csv_file env cid cname fname = (false, "", "")) ∧
      (process_csv_file env cid cname fname = (false, "", "") ∨
        (process_csv_file env cid cname fname).1 = true) := by
  refine ⟨?_, ?_, ?_⟩
  · intro hf
    unfold process_csv_file
    rw [if_pos hf]
  · intro e he
    unfold process_csv_file
    by_cases hf : env.fileExists = false
    · rw [if_pos hf]
    · rw [if_neg hf, he]
  · unfold process_csv_file
    by_cases hf : env.fileExists = false
    · rw [if_pos hf]
      exact Or.inl rfl
    · rw [if_neg hf]
      cases hb : processCsvBody env cid cname fname with
      | error e => exact Or.inl rfl
      | ok r => exact Or.inr (processCsvBody_ok_true env cid cname fname r hb)

/-- Witness for claim C4: an IO error while reading the raw file yields the
failure triple. -/
theorem claim_C4_transform_tristate_witness :
    process_csv_file ⟨true, some "OSError", [], none, none, none, none, true, none⟩
        "1" "C" "f.csv" = (false, "", "") :=
  (claim_C4_transform_tristate
      ⟨true, some "OSError", [], none, none, none, none, true, none⟩
      "1" "C" "f.csv").2.1 "OSError" rfl

theorem rowCells_some_not_na (n : Nat) (line : String) :
    ∀ c ∈ rowCells n line, ∀ s, c = some s → s ∉ naVals := by
  intro c hc s hs
  unfold rowCells at hc
  rcases List.mem_append.mp hc with hl | hr
  · rcases List.mem_map.mp hl with ⟨f, _, rfl⟩
    unfold toCell at hs
    by_cases hf : f ∈ naVals
    · rw [if_pos hf] at hs
      cases hs
    · rw [if_neg hf] at hs
      rw [← Option.some.inj hs]
      exact hf
  · rw [List.eq_of_mem_replicate hr] at hs
    cases hs

theorem filterByKeep_subset {α : Type} (keep : List Bool) (l : List α) :
    ∀ x ∈ filterByKeep keep l, x ∈ l := by
  intro x hx
  unfold filterByKeep at hx
  rcases List.mem_filterMap.mp hx with ⟨p, hp, hite⟩
  by_cases h1 : p.1 = true
  · rw [if_pos h1] at hite
    rw [← Option.some.inj hite]
    exact (List.of_mem_zip hp).2
  · rw [if_neg h1] at hite
    cases hite

/-- Amended claim C9: a raw cell that is an empty string — including a
quoted single space written in the space-padded form the portal emits
(`, " " ,`), which the pre-cleaning rewrites to an empty field — is rendered
in the emitted machine table as the literal marker "NULL"; no cell of the
emitted table (course id and name included, when non-empty) is ever an
empty string.  (The unamended claim fails for a quoted single space written
flush against the separators, which none of the three replace patterns
matches; see the counterexample.) -/
theorem claim_C9_amended_null_rendering :
    ((toCell "").getD "NULL" = "NULL") ∧
      parseFields (cleanLine "x, \" \" , y") = ["x", "", "y"] ∧
      (∀ (rawLines : List String) (cid cname : String) (df : PyFrame),
        cid ≠ "" → cname ≠ "" →
        buildDataFrame rawLines cid cname = some df →
        ∀ row ∈ df.rows, ∀ c ∈ row, c ≠ "") := by
  refine ⟨by decide, by decide, ?_⟩
  intro rawLines cid cname df hcid hcname hdf row hrow c hcell
  unfold buildDataFrame at hdf
  cases hcl : cleanedLines rawLines with
  | nil => rw [hcl] at hdf; cases hdf
  | cons header restLines =>
    rw [hcl] at hdf
    simp only at hdf
    by_cases hw : (parseFields header).length ≠ commaCount header + 1
    · rw [if_pos hw] at hdf
      cases hdf
    · rw [if_neg hw] at hdf
      have hrows : df.rows = (restLines.drop 1).map
          (finalRow (commaCount header + 1) (keepMask header) cid cname) := by
        rw [← Option.some.inj hdf]
      rw [hrows] at hrow
      rcases List.mem_map.mp hrow with ⟨line, _, rfl⟩
      unfold finalRow at hcell
      rcases List.mem_cons.mp hcell with rfl | hcell2
      · exact hcid
      rcases List.mem_cons.mp hcell2 with rfl | hcell3
      · exact hcname
      rcases List.mem_map.mp hcell3 with ⟨cell, hcellmem, rfl⟩
      have hcell4 := filterByKeep_subset (keepMask header)
        (rowCells (commaCount header + 1) line) cell hcellmem
      cases cell with
      | none =>
        intro hbad
        exact absurd hbad (by decide)
      | some s =>
        have hs := rowCells_some_not_na (commaCount header + 1) line
          (some s) hcell4 s rfl
        intro hbad
        rw [show (some s).getD "NULL" = s from rfl] at hbad
        rw [hbad] at hs
        exact hs (by decide)

/-- Witness for the amended claim C9: an empty raw cell of a concrete table
is rendered "NULL", which is not the empty string. -/
theorem claim_C9_amended_null_rendering_witness :
    ((toCell "").getD "NULL" = "NULL") ∧
      parseFields (cleanLine "x, \" \" , y") = ["x", "", "y"] ∧
      ("NULL" : String) ≠ "" :=
  ⟨claim_C9_amended_null_rendering.1, claim_C9_amended_null_rendering.2.1,
    claim_C9_amended_null_rendering.2.2 ["A,B", "p,q", "1,"] "X" "Y"
      ⟨["COURSE_ID", "COURSE_NAME", "A", "B"], [["X", "Y", "1", "NULL"]]⟩
      (by decide) (by decide) (by decide)
      ["X", "Y", "1", "NULL"] (by decide) "NULL" (by decide)⟩

/-- Counterexample to claim C9 as stated: the raw cell `" "` of the line
`a," ",b` is a quoted single space, but written flush against the commas it
matches none of the transform's three replace patterns, so it survives
parsing as the one-character string " " and is emitted verbatim — not as
"NULL". -/
theorem claim_C9_counterexample :
    buildDataFrame ["A,B,C", "p,q,r", "a,\" \",b"] "X" "Y"
        = some ⟨["COURSE_ID", "COURSE_NAME", "A", "B", "C"],
            [["X", "Y", "a", " ", "b"]]⟩ ∧
      (" " : String) ≠ "NULL" := by decide

end Netacad
